import Mathlib

/-!
Shallow embedding of `src/server.py` (USPS label generator) and proofs of the
specification claims about it.  Python floats are modelled as `ℚ`, Python
strings as `String`, the single outbound HTTP call as an explicit abstract
outcome value, and the PyMuPDF page-editing primitives as an event trace.
-/

namespace Server

/-! ## String helpers (Python `re.sub`, `str.strip`, `str.isdigit`) -/

/-- `re.sub(r"[^0-9]", "", s or "")`: keep only the ASCII digit characters. -/
def digitsOnly (s : String) : String :=
  String.mk (s.data.filter Char.isDigit)

/-- Python `str.strip()` with the default whitespace argument: drop leading
and trailing whitespace characters. -/
def pyStrip (s : String) : String :=
  String.mk
    (((s.data.dropWhile Char.isWhitespace).reverse.dropWhile Char.isWhitespace).reverse)

/-- Python `str.isdigit()` on ASCII content: nonempty and all digits. -/
def pyIsdigit (s : String) : Bool :=
  !s.isEmpty && s.data.all Char.isDigit

/-! ## SymbologyEncoder (lines 169-182 and 358-362) -/

/-- `_gs1_element_string` (lines 169-182): the GS1 element string encoded into
the 2-D DataMatrix symbol. -/
def gs1_element_string (to_zip tracking_digits : String) : String :=
  "(420)" ++ digitsOnly to_zip ++ "(91)" ++ digitsOnly tracking_digits

/-- The ASCII Group Separator control character `\x1D` used in line 362. -/
def GSChar : Char := Char.ofNat 29

/-- `barcode_content = f"420{clean_zip}\x1D{clean_track}"` (lines 359-362):
the payload encoded into the 1-D code128 barcode. -/
def barcode_content (to_zip tracking : String) : String :=
  "420" ++ digitsOnly to_zip ++ String.singleton GSChar ++ digitsOnly tracking

/-! ## ZoneResolver (`fetch_usps_zone`, lines 117-167)

The single HTTP GET is abstracted into a `NetResult` input: `failure` covers a
transport error, a non-success status raised by `raise_for_status`, and a body
on which `r.json()` fails — everything the `except` clause on line 164
catches.  A successful parse yields the abstract JSON object `ZoneJs`. -/

/-- Abstract shape of a parsed zone-endpoint JSON response: the
`ZoneInformation` field (absent or `null` modelled as `none`) and the
remaining top-level fields with their values rendered through Python `str`. -/
structure ZoneJs where
  zoneInformation : Option String
  fields : List (String × String)
deriving DecidableEq

/-- Outcome of the one outbound HTTP call. -/
inductive NetResult where
  | failure
  | success (js : ZoneJs)
deriving DecidableEq

/-- Python regex word character (`\w` over ASCII): letter, digit or `_`. -/
def isWordChar (c : Char) : Bool :=
  c.isAlphanum || c = '_'

/-- Match a literal pattern at the head of the input, returning the rest. -/
def stripLit : List Char → List Char → Option (List Char)
  | [], l => some l
  | _, [] => none
  | p :: ps, c :: cs => if c = p then stripLit ps cs else none

/-- Try to match `The Zone is\s+(\d+)\b` at the head of `l` (the `\b` before
`The` is checked by the caller).  Returns the captured digit group. -/
def zoneMatchHere (l : List Char) : Option String :=
  match stripLit "The Zone is".data l with
  | none => none
  | some rest =>
      let ws := rest.takeWhile Char.isWhitespace
      let rest2 := rest.dropWhile Char.isWhitespace
      if ws.isEmpty then none
      else
        let ds := rest2.takeWhile Char.isDigit
        let rest3 := rest2.dropWhile Char.isDigit
        if ds.isEmpty then none
        else
          match rest3 with
          | [] => some (String.mk ds)
          | c :: _ => if isWordChar c then none else some (String.mk ds)

/-- Leftmost-match scan for `re.search(r"\bThe Zone is\s+(\d+)\b", zi)`,
carrying the previous character to decide the leading word boundary. -/
def zoneSearch : Option Char → List Char → Option String
  | _, [] => none
  | prev, c :: rest =>
      let boundaryOK :=
        match prev with
        | none => true
        | some p => !isWordChar p
      match (if boundaryOK then zoneMatchHere (c :: rest) else none) with
      | some z => some z
      | none => zoneSearch (some c) rest

/-- `re.search(r"\bThe Zone is\s+(\d+)\b", zi)` returning the captured group. -/
def zonePhraseSearch (s : String) : Option String :=
  zoneSearch none s.data

/-- The fallback key list scanned on lines 160-162. -/
def zoneFallbackKeys : List String :=
  ["Zone", "zone", "ZoneNumber", "zoneNumber"]

/-- `k in js` plus value retrieval on the abstract JSON object. -/
def lookupField (fields : List (String × String)) (k : String) : Option String :=
  (fields.find? (fun kv => kv.fst = k)).map (fun kv => kv.snd)

/-- The loop of lines 160-162: first key present whose `str(js[k]).strip()`
is purely numeric; returns that stripped value. -/
def zoneFromKeys (fields : List (String × String)) : List String → Option String
  | [] => none
  | k :: ks =>
      match lookupField fields k with
      | some v =>
          if pyIsdigit (pyStrip v) then some (pyStrip v)
          else zoneFromKeys fields ks
      | none => zoneFromKeys fields ks

/-- `fetch_usps_zone` (lines 117-167) with the network call abstracted to
`net`.  Returns the zone string (`""` = unresolved) paired with the number of
outbound calls issued.  The Lean function is total: no error value escapes,
mirroring the `try/except` that converts every call failure into `""`. -/
def fetch_usps_zone (net : NetResult)
    (origin_zip destination_zip shipping_date : String) : String × Nat :=
  let origin := digitsOnly origin_zip
  let destination := digitsOnly destination_zip
  let sd := pyStrip shipping_date
  if origin.length ≠ 5 ∨ destination.length ≠ 5 ∨ sd.isEmpty then ("", 0)
  else
    match net with
    | NetResult.failure => ("", 1)
    | NetResult.success js =>
        let zi := js.zoneInformation.getD ""
        match zonePhraseSearch zi with
        | some z => (z, 1)
        | none =>
            match zoneFromKeys js.fields zoneFallbackKeys with
            | some z => (z, 1)
            | none => ("", 1)

/-! ## Data model (lines 28-43, after `model_dump(by_alias=True)`) -/

structure Address where
  name : String
  address : String
  city : String
  state : String
  zip : String
deriving DecidableEq

/-- The working `data` dict of `generate_pdf_bytes`.  After `model_dump`, the
`zone` and `delivery_date` keys are always present, possibly holding `None`
(modelled as `none`). -/
structure LabelData where
  from_addr : Address
  to_addr : Address
  weight : String
  zone : Option String
  tracking : String
  date : String
  delivery_date : Option String
deriving DecidableEq

/-- Lines 234-236: `if looked_up_zone: data["zone"] = looked_up_zone`.
Python string truthiness makes the overwrite happen exactly when the lookup
result is nonempty. -/
def applyZoneLookup (data : LabelData) (looked_up_zone : String) : LabelData :=
  if looked_up_zone ≠ "" then { data with zone := some looked_up_zone }
  else data

/-- Python `str()` of the value stored under the `"zone"` key: `None` renders
as the string `"None"`. -/
def pyStrOfOptStr : Option String → String
  | none => "None"
  | some s => s

/-- Line 470: `val = f"Zone {data.get('zone', '')}"`.  The key is always
present after `model_dump`, so `get` returns the stored value (possibly
`None`) and the f-string interpolates it through `str`. -/
def zoneDisplayVal (data : LabelData) : String :=
  "Zone " ++ pyStrOfOptStr data.zone

/-! ## AnchorLocator: `find_matrix_slots` (lines 64-115) -/

/-- A PyMuPDF rectangle.  Coordinates are rationals; `y` grows downward, so
`y0` is the top edge. -/
structure Rect where
  x0 : ℚ
  y0 : ℚ
  x1 : ℚ
  y1 : ℚ
deriving DecidableEq

def Rect.width (r : Rect) : ℚ := r.x1 - r.x0

def Rect.height (r : Rect) : ℚ := r.y1 - r.y0

def Rect.area (r : Rect) : ℚ := r.width * r.height

/-- The per-rect candidate filter of `find_matrix_slots` (lines 78-94):
positive extents, square-ish aspect, and both extents within `[20, 160]`. -/
def matrixCandidate (r : Rect) : Bool :=
  let w := r.width
  let h := r.height
  if w ≤ 0 ∨ h ≤ 0 then false
  else
    let ar : ℚ := if h ≠ 0 then w / h else 999
    if ar < 0.85 ∨ ar > 1.18 then false
    else if w < 20 ∨ h < 20 then false
    else if w > 160 ∨ h > 160 then false
    else true

/-- `candidates.sort(key=lambda t: (t[0], -t[1].y0))` (line 100): comparison
used by the stable sort — lexicographic on `(area, -y0)`. -/
def slotKeyLE (a b : Rect) : Prop :=
  a.area < b.area ∨ (a.area = b.area ∧ -a.y0 ≤ -b.y0)

instance : DecidableRel slotKeyLE := fun a b => by
  unfold slotKeyLE
  infer_instance

def slotLE (a b : Rect) : Bool := decide (slotKeyLE a b)

/-- The near-identical test of lines 105-109. -/
def nearIdentical (r s : Rect) : Bool :=
  decide (|r.x0 - s.x0| < 1 ∧ |r.y0 - s.y0| < 1 ∧
    |r.x1 - s.x1| < 1 ∧ |r.y1 - s.y1| < 1)

/-- The dedupe-and-take loop of lines 102-113: accepted slots accumulate in
`slots`; a rect near-identical to an accepted slot is skipped; the function
returns as soon as `want` slots are accepted. -/
def selectSlots (want : Nat) : List Rect → List Rect → List Rect
  | slots, [] => slots
  | slots, r :: rest =>
      if slots.any (fun s => nearIdentical r s) then selectSlots want slots rest
      else if want ≤ (slots ++ [r]).length then slots ++ [r]
      else selectSlots want (slots ++ [r]) rest

/-- `find_matrix_slots` (lines 64-115) on the flattened list of image
placement rects of the page, in page order. -/
def find_matrix_slots (imageRects : List Rect) (want : Nat) : List Rect :=
  let candidates := imageRects.filter matrixCandidate
  if candidates = [] then []
  else selectSlots want [] (candidates.mergeSort slotLE)

/-- Spec-side wording of the candidate filter: width/height within
`[0.85, 1.18]` and both width and height within `[20, 160]`. -/
def specSlotOK (r : Rect) : Prop :=
  0.85 ≤ r.width / r.height ∧ r.width / r.height ≤ 1.18 ∧
  20 ≤ r.width ∧ r.width ≤ 160 ∧ 20 ≤ r.height ∧ r.height ≤ 160

/-- Spec-side ordering: ascending area, ties broken by descending top edge. -/
def specSlotOrder (a b : Rect) : Prop :=
  a.area < b.area ∨ (a.area = b.area ∧ b.y0 ≤ a.y0)

/-- Spec-side near-identical relation: all four edge coordinates within 1. -/
def specNear (a b : Rect) : Prop :=
  |a.x0 - b.x0| < 1 ∧ |a.y0 - b.y0| < 1 ∧ |a.x1 - b.x1| < 1 ∧ |a.y1 - b.y1| < 1

/-! ## Orchestrator trace model (`generate_pdf_bytes`, lines 184-475)

The PyMuPDF page-editing primitives are modelled as an event trace in the
order the code issues them.  Geometry arguments of the primitives are not
recorded: the claims below concern ordering, multiplicity and text content. -/

inductive Event where
  | addRedact
  | applyRedactions
  | generateMatrixImage (payload : String)
  | insertMatrixImage (payload : String)
  | generateBarcodeImage (payload : String)
  | insertImage (key : String)
  | insertText (key : String) (text : String)
  | drawRect
deriving DecidableEq

/-- Abstraction of the opened template page: `page.search_for` results per
needle, and the flattened image placement rects in page order. -/
structure Page where
  searchFor : String → List Rect
  imageRects : List Rect

/-- The `ANCHORS` table of lines 202-218, in declaration order (Python dicts
iterate in insertion order). -/
def ANCHORS : List (String × String) :=
  [("postage_date", "01/27/2026"),
   ("postage_from", "From 35020"),
   ("postage_weight", "1 lbs 0 ozs"),
   ("postage_zone", "Zone 8"),
   ("s_name", "Nicolas Robert"),
   ("r_name", "ADAM RANEL"),
   ("routing", "0003"),
   ("code", "C003"),
   ("expected", "Expected Delivery Date: 01/30/2026"),
   ("tracking_text", "9405 5401 0962 8019 5574 80"),
   ("barcode_header", "USPS TRACKING #"),
   ("id_028w", "028W0002310105"),
   ("id_2000", "2000494248")]

/-- Redaction-annotation events added for one found anchor (lines 247-276):
the `s_name`/`r_name`, `code` and `barcode_header` policies add one
annotation each; the default policy redacts every occurrence found. -/
def redactEventsFor (key : String) (rects : List Rect) : List Event :=
  if key = "s_name" ∨ key = "r_name" then [Event.addRedact]
  else if key = "code" then [Event.addRedact]
  else if key = "barcode_header" then [Event.addRedact]
  else rects.map (fun _ => Event.addRedact)

structure Phase1Out where
  events : List Event
  queue : List (String × Rect)

/-- Phase 1 (lines 239-278): for each anchor in table order, search for its
literal text; when found, plan the key-specific redactions and append the
`(key, primary rect)` pair to the insert queue. -/
def phase1 (page : Page) : List (String × String) → Phase1Out
  | [] => ⟨[], []⟩
  | (key, needle) :: rest =>
      let rects := page.searchFor needle
      let tail := phase1 page rest
      match rects with
      | [] => tail
      | primary :: _ =>
          ⟨redactEventsFor key rects ++ tail.events, (key, primary) :: tail.queue⟩

/-- Redactions inside each detected matrix slot (lines 281-284). -/
def matrixRedactEvents (slots : List Rect) : List Event :=
  slots.map (fun _ => Event.addRedact)

/-- The random draws of one generation call: `randint(0, 9999999)` and
`randint(0, 999999)` (lines 227-228) and the carrier-code `choice`
(lines 334-335). -/
structure RandomDraws where
  n028w : Nat
  n2000 : Nat
  carrierIdx : Fin 5

/-- Whether each fallible symbol-rendering primitive succeeds; `false` models
`generate_barcode` raising, which the surrounding `try/except` catches
(lines 301-328 and 358-408). -/
structure RenderEnv where
  dmOk : Bool
  barcodeOk : Bool

/-- Python `f"{n:0wd}"` zero padding. -/
def zeroPad (wd : Nat) (n : Nat) : String :=
  String.mk (List.replicate (wd - (toString n).length) '0') ++ toString n

/-- Line 227: `rand_028w = f"0028W000{randint(0, 9999999):07d}"`. -/
def rand_028w (rnd : RandomDraws) : String :=
  "0028W000" ++ zeroPad 7 rnd.n028w

/-- Line 228: `rand_2000 = f"2000{randint(0, 999999):06d}"`. -/
def rand_2000 (rnd : RandomDraws) : String :=
  "2000" ++ zeroPad 6 rnd.n2000

/-- Line 334: the carrier-code candidate list. -/
def carrier_code : List String :=
  ["C003", "C008", "C013", "R144", "C001"]

/-- Fuel-driven splitting of a character list into blocks of at most 4. -/
def chunksAux : Nat → List Char → List (List Char)
  | _, [] => []
  | 0, _ => []
  | Nat.succ fuel, c :: rest => (c :: rest.take 3) :: chunksAux fuel (rest.drop 3)

/-- `re.findall(r".{1,4}", s)` on a digits-only string (no newlines). -/
def chunks4 (l : List Char) : List (List Char) :=
  chunksAux l.length l

/-- Lines 400-401: the printed tracking number, digit-only, grouped in blocks
of 4 separated by single spaces. -/
def display_text (tracking : String) : String :=
  pyStrip (String.intercalate " " ((chunks4 (digitsOnly tracking).data).map String.mk))

/-- Lines 429-430: the expected-delivery text, with Python truthiness on the
optional delivery date. -/
def expectedText (data : LabelData) : String :=
  match data.delivery_date with
  | some dd =>
      if dd ≠ "" then "Expected Delivery Date: " ++ dd
      else "Expected Delivery Date:"
  | none => "Expected Delivery Date:"

/-- Lines 465-470: postage metadata values; `postage_from` and `postage_zone`
override the generic `data.get(suffix)` lookup. -/
def postageVal (data : LabelData) (key : String) : String :=
  if key = "postage_from" then "From " ++ data.from_addr.zip
  else if key = "postage_zone" then zoneDisplayVal data
  else if key = "postage_date" then data.date
  else data.weight

/-- The per-key `elif` chain of the overlay loop (lines 332-471), in source
order; keys with no branch (such as `tracking_text`) render nothing. -/
def renderEventsFor (env : RenderEnv) (rnd : RandomDraws) (data : LabelData)
    (key : String) : List Event :=
  if key = "code" then
    [Event.insertText "code" (carrier_code.get rnd.carrierIdx), Event.drawRect]
  else if key = "barcode_header" then
    if env.barcodeOk then
      [Event.generateBarcodeImage (barcode_content data.to_addr.zip data.tracking),
       Event.insertImage "barcode_header",
       Event.insertText "barcode_header" (display_text data.tracking)]
    else
      [Event.generateBarcodeImage (barcode_content data.to_addr.zip data.tracking)]
  else if key = "id_028w" then
    [Event.insertText "id_028w" (rand_028w rnd)]
  else if key = "id_2000" then
    [Event.insertText "id_2000" (rand_2000 rnd)]
  else if key = "expected" then
    [Event.insertText "expected" (expectedText data)]
  else if key = "s_name" then
    [Event.insertText "s_name" data.from_addr.name,
     Event.insertText "s_name" data.from_addr.address,
     Event.insertText "s_name"
       (data.from_addr.city ++ " " ++ data.from_addr.state ++ " "
         ++ data.from_addr.zip)]
  else if key = "r_name" then
    [Event.insertText "r_name" data.to_addr.name,
     Event.insertText "r_name" data.to_addr.address,
     Event.insertText "r_name"
       (data.to_addr.city ++ " " ++ data.to_addr.state ++ " " ++ data.to_addr.zip)]
  else if key = "routing" then
    [Event.insertText "routing" "0003"]
  else if key = "postage_date" ∨ key = "postage_from" ∨ key = "postage_weight" ∨
      key = "postage_zone" then
    [Event.insertText key (postageVal data key)]
  else
    []

/-- The one-shot DataMatrix block (lines 294-330): the symbol image is
generated once from the GS1 element string and the same bytes are inserted
into every detected slot; a generation failure (caught by the `try/except`)
skips the insertions. -/
def matrixBlockEvents (env : RenderEnv) (data : LabelData) (slots : List Rect) :
    List Event :=
  Event.generateMatrixImage (gs1_element_string data.to_addr.zip data.tracking) ::
    (if env.dmOk then
      slots.map (fun _ =>
        Event.insertMatrixImage (gs1_element_string data.to_addr.zip data.tracking))
    else [])

/-- One iteration of the overlay loop (lines 291-471): the matrix block runs
when `matrices_done` is still false and slots were detected (Python list
truthiness), and sets the flag; then the per-key chain renders. -/
def overlayStep (env : RenderEnv) (rnd : RandomDraws) (data : LabelData)
    (slots : List Rect) (matricesDone : Bool) (key : String) :
    List Event × Bool :=
  if matricesDone = false ∧ slots ≠ [] then
    (matrixBlockEvents env data slots ++ renderEventsFor env rnd data key, true)
  else
    (renderEventsFor env rnd data key, matricesDone)

/-- Phase 2 (lines 288-471): fold of `overlayStep` over the insert queue,
threading the `matrices_done` flag. -/
def phase2 (env : RenderEnv) (rnd : RandomDraws) (data : LabelData)
    (slots : List Rect) : Bool → List (String × Rect) → List Event
  | _, [] => []
  | done, (key, _) :: rest =>
      (overlayStep env rnd data slots done key).1 ++
        phase2 env rnd data slots (overlayStep env rnd data slots done key).2 rest

/-- The full page-operation trace of one `generate_pdf_bytes` call: phase-1
redaction annotations (lines 239-284), the single `apply_redactions` call
(line 286), then the overlay insertions (lines 288-471).  `data` is the
working dict after the zone-lookup step. -/
def fullTrace (env : RenderEnv) (rnd : RandomDraws) (data : LabelData)
    (page : Page) : List Event :=
  (phase1 page ANCHORS).events
    ++ matrixRedactEvents (find_matrix_slots page.imageRects 2)
    ++ [Event.applyRedactions]
    ++ phase2 env rnd data (find_matrix_slots page.imageRects 2) false
        (phase1 page ANCHORS).queue

/-- Outcome of one `generate_pdf_bytes` call (lines 198 and 473-475): the doc
is opened, the trace is produced, `doc.tobytes` serializes, and only then does
`doc.close()` run.  There is no `try/finally`: `serializeRaises` models
`doc.tobytes` raising, in which case the exception propagates to the caller
and the close on line 474 is never reached. -/
structure RunOutcome where
  result : Except Unit (List Event)
  docClosed : Bool

def generate_pdf_run (env : RenderEnv) (rnd : RandomDraws) (data : LabelData)
    (page : Page) (serializeRaises : Bool) : RunOutcome :=
  if serializeRaises then ⟨Except.error (), false⟩
  else ⟨Except.ok (fullTrace env rnd data page), true⟩

/-- Overlay events: everything phase 2 may emit (text or image insertion,
symbol generation, border drawing). -/
def isOverlayEvent : Event → Bool
  | Event.addRedact => false
  | Event.applyRedactions => false
  | _ => true

def isMatrixEvent : Event → Bool
  | Event.generateMatrixImage _ => true
  | Event.insertMatrixImage _ => true
  | _ => false

def isGenMatrix : Event → Bool
  | Event.generateMatrixImage _ => true
  | _ => false

def isInsertMatrix : Event → Bool
  | Event.insertMatrixImage _ => true
  | _ => false

end Server

namespace Server

/-! ## Claim C2 and C3 theorems -/

/-- C2: for all inputs, the 2-D matrix payload is
`"(420)" ++ digitsOnly zip ++ "(91)" ++ digitsOnly tracking`, where
`digitsOnly` keeps exactly the digit characters; in particular it maps
`("90210-1234", "94 05-54")` to `"(420)902101234(91)940554"`. -/
theorem gs1_element_string_spec :
    (∀ z t, gs1_element_string z t =
      "(420)" ++ digitsOnly z ++ "(91)" ++ digitsOnly t)
    ∧ (∀ s, (digitsOnly s).data = s.data.filter Char.isDigit)
    ∧ (∀ s, (digitsOnly s).data.all Char.isDigit = true)
    ∧ gs1_element_string "90210-1234" "94 05-54" = "(420)902101234(91)940554" := by
  refine ⟨fun z t => rfl, fun s => rfl, fun s => ?_, by decide⟩
  simp [digitsOnly, List.all_eq_true]

/-- C3: for all inputs, the 1-D linear barcode payload is
`"420" ++ digitsOnly zip ++ GS ++ digitsOnly tracking` where `GS` is the ASCII
Group Separator character `0x1D`. -/
theorem linear_barcode_content_spec :
    (∀ z t, barcode_content z t =
      "420" ++ digitsOnly z ++ String.singleton GSChar ++ digitsOnly t)
    ∧ GSChar.toNat = 29
    ∧ (∀ s, (digitsOnly s).data.all Char.isDigit = true)
    ∧ barcode_content "90210-1234" "94 05-54" =
        "420902101234" ++ String.singleton (Char.ofNat 29) ++ "940554" := by
  refine ⟨fun z t => rfl, by decide, fun s => ?_, by decide⟩
  simp [digitsOnly, List.all_eq_true]

/-! ## Claim C4 and C5 theorems -/

/-- C4: the zone lookup issues no outbound call and returns unresolved when
the digit-stripped origin or destination is not exactly 5 digits or the
trimmed ship date is empty; otherwise it issues exactly one outbound call;
and any failure of that call yields the unresolved result.  The embedding is
a total function, mirroring the `try/except` that stops any exception from
propagating to the caller. -/
theorem fetch_usps_zone_spec :
    ∀ (net : NetResult) (o d sd : String),
      (¬((digitsOnly o).length = 5 ∧ (digitsOnly d).length = 5 ∧
          (pyStrip sd).isEmpty = false) →
        fetch_usps_zone net o d sd = ("", 0))
      ∧ (((digitsOnly o).length = 5 ∧ (digitsOnly d).length = 5 ∧
          (pyStrip sd).isEmpty = false) →
        (fetch_usps_zone net o d sd).2 = 1)
      ∧ (net = NetResult.failure → (fetch_usps_zone net o d sd).1 = "") := by
  intro net o d sd
  by_cases hg : (digitsOnly o).length ≠ 5 ∨ (digitsOnly d).length ≠ 5 ∨
      (pyStrip sd).isEmpty
  · refine ⟨fun _ => by simp [fetch_usps_zone, hg], fun h => absurd hg ?_,
      fun _ => by simp [fetch_usps_zone, hg]⟩
    push_neg
    exact ⟨h.1, h.2.1, by simp [h.2.2]⟩
  · have hval : ¬((digitsOnly o).length ≠ 5 ∨ (digitsOnly d).length ≠ 5 ∨
        (pyStrip sd).isEmpty) := hg
    refine ⟨fun hcon => absurd ?_ hcon, fun _ => ?_, fun hnet => ?_⟩
    · push_neg at hval
      exact ⟨hval.1, hval.2.1, by simpa using hval.2.2⟩
    · cases net with
      | failure => simp [fetch_usps_zone, hval]
      | success js =>
          simp only [fetch_usps_zone, if_neg hval]
          cases zonePhraseSearch (js.zoneInformation.getD "") with
          | some z => rfl
          | none =>
              cases h2 : zoneFromKeys js.fields zoneFallbackKeys <;>
                simp [h2]
    · subst hnet
      simp [fetch_usps_zone, hval]

/-- C4 witness: with a failing call outcome, a 3-digit origin yields the
unresolved result with zero calls; valid inputs yield exactly one call and
the unresolved result. -/
theorem fetch_usps_zone_spec_witness :
    fetch_usps_zone NetResult.failure "612" "35020" "01/13/2026" = ("", 0)
    ∧ (fetch_usps_zone NetResult.failure "90210" "35020" "01/13/2026").2 = 1
    ∧ (fetch_usps_zone NetResult.failure "90210" "35020" "01/13/2026").1 = "" :=
  ⟨(fetch_usps_zone_spec NetResult.failure "612" "35020" "01/13/2026").1 (by decide),
   (fetch_usps_zone_spec NetResult.failure "90210" "35020" "01/13/2026").2.1 (by decide),
   (fetch_usps_zone_spec NetResult.failure "90210" "35020" "01/13/2026").2.2 rfl⟩

/-- C5: if the zone lookup resolves a zone, the working data's zone field is
overwritten with it and no other field changes; if the lookup is unresolved,
the working data (including any caller-supplied zone) is left entirely
unchanged. -/
theorem zone_overwrite_spec :
    ∀ (data : LabelData) (net : NetResult),
      ((fetch_usps_zone net data.from_addr.zip data.to_addr.zip
          (pyStrip data.date)).1 ≠ "" →
        applyZoneLookup data
            (fetch_usps_zone net data.from_addr.zip data.to_addr.zip
              (pyStrip data.date)).1
          = { data with
                zone := some (fetch_usps_zone net data.from_addr.zip
                  data.to_addr.zip (pyStrip data.date)).1 })
      ∧ ((fetch_usps_zone net data.from_addr.zip data.to_addr.zip
          (pyStrip data.date)).1 = "" →
        applyZoneLookup data
            (fetch_usps_zone net data.from_addr.zip data.to_addr.zip
              (pyStrip data.date)).1
          = data) := by
  intro data net
  constructor
  · intro h
    simp [applyZoneLookup, h]
  · intro h
    simp [applyZoneLookup, h]

/-- Sample request data used by concrete witnesses. -/
def sampleData : LabelData :=
  ⟨⟨"Nicolas Robert", "1 Main St", "Birmingham", "AL", "35020"⟩,
   ⟨"ADAM RANEL", "2 Oak Ave", "Beverly Hills", "CA", "90210"⟩,
   "1 lbs 0 ozs", none, "940554010962801955", "01/13/2026", none⟩

/-- Sample request data whose empty ship date blocks the zone lookup. -/
def sampleDataNoDate : LabelData :=
  { sampleData with date := "" }

/-- A network outcome whose body carries the prose zone sentence. -/
def zoneNet : NetResult :=
  NetResult.success ⟨some "The Zone is 7", []⟩

/-- C5 witness: a resolving lookup overwrites the zone field; an unresolved
lookup (empty ship date) leaves the data unchanged. -/
theorem zone_overwrite_spec_witness :
    applyZoneLookup sampleData
        (fetch_usps_zone zoneNet sampleData.from_addr.zip sampleData.to_addr.zip
          (pyStrip sampleData.date)).1
      = { sampleData with
            zone := some (fetch_usps_zone zoneNet sampleData.from_addr.zip
              sampleData.to_addr.zip (pyStrip sampleData.date)).1 }
    ∧ applyZoneLookup sampleDataNoDate
        (fetch_usps_zone NetResult.failure sampleDataNoDate.from_addr.zip
          sampleDataNoDate.to_addr.zip (pyStrip sampleDataNoDate.date)).1
      = sampleDataNoDate :=
  ⟨(zone_overwrite_spec sampleData zoneNet).1 (by decide),
   (zone_overwrite_spec sampleDataNoDate NetResult.failure).2 (by decide)⟩

/-! ## Claim C6 lemmas and theorem -/

theorem matrixCandidate_spec (r : Rect) (hmc : matrixCandidate r = true) :
    specSlotOK r := by
  simp only [matrixCandidate] at hmc
  split at hmc
  · exact Bool.noConfusion hmc
  next h1 =>
    push_neg at h1
    rw [if_pos h1.2.ne'] at hmc
    split at hmc
    · exact Bool.noConfusion hmc
    next h2 =>
      split at hmc
      · exact Bool.noConfusion hmc
      next h3 =>
        split at hmc
        · exact Bool.noConfusion hmc
        next h4 =>
          push_neg at h2 h3 h4
          exact ⟨h2.1, h2.2, h3.1, h4.1, h3.2, h4.2⟩

theorem slotLE_trans (a b c : Rect) (h1 : slotLE a b = true)
    (h2 : slotLE b c = true) : slotLE a c = true := by
  simp only [slotLE, slotKeyLE, decide_eq_true_eq] at h1 h2 ⊢
  rcases h1 with h1 | ⟨e1, y1⟩
  · rcases h2 with h2 | ⟨e2, y2⟩
    · exact Or.inl (lt_trans h1 h2)
    · exact Or.inl (e2 ▸ h1)
  · rcases h2 with h2 | ⟨e2, y2⟩
    · exact Or.inl (lt_of_le_of_lt (le_of_eq e1) h2)
    · exact Or.inr ⟨e1.trans e2, le_trans y1 y2⟩

theorem slotLE_total (a b : Rect) : (slotLE a b || slotLE b a) = true := by
  simp only [slotLE, slotKeyLE, Bool.or_eq_true, decide_eq_true_eq]
  rcases lt_trichotomy a.area b.area with h | h | h
  · exact Or.inl (Or.inl h)
  · rcases le_total (-a.y0) (-b.y0) with hy | hy
    · exact Or.inl (Or.inr ⟨h, hy⟩)
    · exact Or.inr (Or.inr ⟨h.symm, hy⟩)
  · exact Or.inr (Or.inl h)

theorem selectSlots_sublist (want : Nat) (l : List Rect) :
    ∀ slots, ∃ l', l'.Sublist l ∧ selectSlots want slots l = slots ++ l' := by
  induction l with
  | nil =>
      intro slots
      exact ⟨[], List.Sublist.refl _, by simp [selectSlots]⟩
  | cons r rest ih =>
      intro slots
      by_cases hnear : slots.any (fun s => nearIdentical r s) = true
      · obtain ⟨l', hsub, heq⟩ := ih slots
        refine ⟨l', hsub.cons r, ?_⟩
        simp only [selectSlots]
        rw [if_pos hnear, heq]
      · by_cases hlen : want ≤ (slots ++ [r]).length
        · refine ⟨[r], (List.nil_sublist rest).cons₂ r, ?_⟩
          simp only [selectSlots]
          rw [if_neg hnear, if_pos hlen]
        · obtain ⟨l', hsub, heq⟩ := ih (slots ++ [r])
          refine ⟨r :: l', hsub.cons₂ r, ?_⟩
          simp only [selectSlots]
          rw [if_neg hnear, if_neg hlen, heq, List.append_assoc]
          rfl

theorem selectSlots_length_le (want : Nat) (l : List Rect) :
    ∀ slots, slots.length < want → (selectSlots want slots l).length ≤ want := by
  induction l with
  | nil =>
      intro slots h
      simpa [selectSlots] using le_of_lt h
  | cons r rest ih =>
      intro slots h
      simp only [selectSlots]
      by_cases hnear : slots.any (fun s => nearIdentical r s) = true
      · rw [if_pos hnear]
        exact ih slots h
      · rw [if_neg hnear]
        by_cases hlen : want ≤ (slots ++ [r]).length
        · rw [if_pos hlen]
          simpa using h
        · rw [if_neg hlen]
          exact ih _ (not_le.mp hlen)

theorem selectSlots_pairwise (want : Nat) (l : List Rect) :
    ∀ slots, slots.Pairwise (fun a b => nearIdentical b a = false) →
      (selectSlots want slots l).Pairwise (fun a b => nearIdentical b a = false) := by
  induction l with
  | nil =>
      intro slots h
      simpa [selectSlots] using h
  | cons r rest ih =>
      intro slots h
      simp only [selectSlots]
      by_cases hnear : slots.any (fun s => nearIdentical r s) = true
      · rw [if_pos hnear]
        exact ih slots h
      · rw [if_neg hnear]
        have hfalse : slots.any (fun s => nearIdentical r s) = false := by
          simpa using hnear
        have hall : ∀ s ∈ slots, nearIdentical r s = false := by
          intro s hs
          simpa using List.any_eq_false.mp hfalse s hs
        have hpr : (slots ++ [r]).Pairwise (fun a b => nearIdentical b a = false) := by
          rw [List.pairwise_append]
          refine ⟨h, List.pairwise_singleton _ _, ?_⟩
          intro a ha b hb
          rw [List.mem_singleton] at hb
          subst hb
          exact hall a ha
        by_cases hlen : want ≤ (slots ++ [r]).length
        · rw [if_pos hlen]
          exact hpr
        · rw [if_neg hlen]
          exact ih _ hpr

/-- The four image rects of the spec's worked detection example. -/
def rect40x42 : Rect := ⟨0, 0, 40, 42⟩

def rect35 : Rect := ⟨0, 50, 35, 85⟩

def rect500 : Rect := ⟨0, 90, 500, 590⟩

def rect15 : Rect := ⟨0, 600, 15, 615⟩

/-- C6: matrix-slot detection returns at most two rects, each passing the
aspect and size filters, ordered by ascending area with ties broken by
descending top edge, with no two accepted rects near-identical; over images
sized 40×42, 35×35, 500×500 and 15×15 it returns exactly the 35×35 and 40×42
rects in ascending-area order. -/
theorem find_matrix_slots_spec :
    (∀ rects : List Rect,
      (find_matrix_slots rects 2).length ≤ 2
      ∧ (find_matrix_slots rects 2).Forall specSlotOK
      ∧ (find_matrix_slots rects 2).Pairwise specSlotOrder
      ∧ (find_matrix_slots rects 2).Pairwise (fun a b => ¬ specNear a b))
    ∧ find_matrix_slots [rect40x42, rect35, rect500, rect15] 2
        = [rect35, rect40x42] := by
  constructor
  · intro rects
    simp only [find_matrix_slots]
    by_cases hc : rects.filter matrixCandidate = []
    · simp [hc]
    · rw [if_neg hc]
      obtain ⟨l', hsub, heq⟩ :=
        selectSlots_sublist 2 ((rects.filter matrixCandidate).mergeSort slotLE) []
      have hres : selectSlots 2 [] ((rects.filter matrixCandidate).mergeSort slotLE)
          = l' := by
        simpa using heq
      rw [hres]
      refine ⟨?_, ?_, ?_, ?_⟩
      · have := selectSlots_length_le 2
          ((rects.filter matrixCandidate).mergeSort slotLE) [] (by norm_num)
        rwa [hres] at this
      · rw [List.forall_iff_forall_mem]
        intro x hx
        have hxS : x ∈ (rects.filter matrixCandidate).mergeSort slotLE :=
          hsub.subset hx
        have hxf : x ∈ rects.filter matrixCandidate :=
          ((List.mergeSort_perm _ _).mem_iff).mp hxS
        exact matrixCandidate_spec x (List.mem_filter.mp hxf).2
      · have hS : ((rects.filter matrixCandidate).mergeSort slotLE).Pairwise
            (fun a b => slotLE a b = true) :=
          List.sorted_mergeSort slotLE_trans slotLE_total _
        have hl' : l'.Pairwise (fun a b => slotLE a b = true) := hS.sublist hsub
        refine hl'.imp ?_
        intro a b hab
        simp only [slotLE, slotKeyLE, decide_eq_true_eq] at hab
        rcases hab with h | ⟨he, hy⟩
        · exact Or.inl h
        · exact Or.inr ⟨he, neg_le_neg_iff.mp hy⟩
      · have hp := selectSlots_pairwise 2
          ((rects.filter matrixCandidate).mergeSort slotLE) [] List.Pairwise.nil
        rw [hres] at hp
        refine hp.imp ?_
        intro a b hab hsp
        have hba : nearIdentical b a = true := by
          simp only [nearIdentical, decide_eq_true_eq]
          obtain ⟨hA, hB, hC, hD⟩ := hsp
          exact ⟨by rwa [abs_sub_comm], by rwa [abs_sub_comm],
            by rwa [abs_sub_comm], by rwa [abs_sub_comm]⟩
        rw [hba] at hab
        exact Bool.noConfusion hab
  · have h1 : matrixCandidate rect40x42 = true := by
      norm_num [matrixCandidate, Rect.width, Rect.height, rect40x42]
    have h2 : matrixCandidate rect35 = true := by
      norm_num [matrixCandidate, Rect.width, Rect.height, rect35]
    have h3 : matrixCandidate rect500 = false := by
      norm_num [matrixCandidate, Rect.width, Rect.height, rect500]
    have h4 : matrixCandidate rect15 = false := by
      norm_num [matrixCandidate, Rect.width, Rect.height, rect15]
    have hle : slotLE rect40x42 rect35 = false := by
      norm_num [slotLE, slotKeyLE, Rect.area, Rect.width, Rect.height, rect40x42,
        rect35]
    have hni : nearIdentical rect40x42 rect35 = false := by
      norm_num [nearIdentical, rect40x42, rect35]
    simp [find_matrix_slots, List.filter_cons, h1, h2, h3, h4, List.mergeSort,
      List.merge, hle, selectSlots, hni]

/-! ## Trace lemmas shared by claims C7, C8 and C9 -/

theorem redactEventsFor_redact (key : String) (rects : List Rect) :
    (redactEventsFor key rects).all (fun e => decide (e = Event.addRedact)) = true := by
  unfold redactEventsFor
  split_ifs <;> simp

theorem phase1_events_redact (page : Page) (l : List (String × String)) :
    ((phase1 page l).events).all (fun e => decide (e = Event.addRedact)) = true := by
  induction l with
  | nil => rfl
  | cons kv rest ih =>
      obtain ⟨key, needle⟩ := kv
      simp only [phase1]
      cases hr : page.searchFor needle with
      | nil => exact ih
      | cons primary more =>
          simp only [List.all_append, Bool.and_eq_true]
          exact ⟨redactEventsFor_redact key (primary :: more), ih⟩

theorem renderEventsFor_overlay (env : RenderEnv) (rnd : RandomDraws)
    (data : LabelData) (key : String) :
    (renderEventsFor env rnd data key).all isOverlayEvent = true := by
  unfold renderEventsFor
  split_ifs <;> simp [isOverlayEvent]

theorem renderEventsFor_no_matrix (env : RenderEnv) (rnd : RandomDraws)
    (data : LabelData) (key : String) :
    (renderEventsFor env rnd data key).all (fun e => !isMatrixEvent e) = true := by
  unfold renderEventsFor
  split_ifs <;> simp [isMatrixEvent]

theorem matrixBlockEvents_overlay (env : RenderEnv) (data : LabelData)
    (slots : List Rect) :
    (matrixBlockEvents env data slots).all isOverlayEvent = true := by
  unfold matrixBlockEvents
  split_ifs <;> simp [isOverlayEvent, List.all_map]

theorem phase2_overlay (env : RenderEnv) (rnd : RandomDraws) (data : LabelData)
    (slots : List Rect) (q : List (String × Rect)) :
    ∀ done, (phase2 env rnd data slots done q).all isOverlayEvent = true := by
  induction q with
  | nil => intro done; rfl
  | cons item rest ih =>
      intro done
      obtain ⟨key, r⟩ := item
      simp only [phase2, List.all_append, Bool.and_eq_true]
      refine ⟨?_, ih _⟩
      unfold overlayStep
      split_ifs
      · simp only [List.all_append, Bool.and_eq_true]
        exact ⟨matrixBlockEvents_overlay env data slots,
          renderEventsFor_overlay env rnd data key⟩
      · exact renderEventsFor_overlay env rnd data key

theorem phase2_true_no_matrix (env : RenderEnv) (rnd : RandomDraws)
    (data : LabelData) (slots : List Rect) (q : List (String × Rect)) :
    (phase2 env rnd data slots true q).all (fun e => !isMatrixEvent e) = true := by
  induction q with
  | nil => rfl
  | cons item rest ih =>
      obtain ⟨key, r⟩ := item
      have hcond : ¬(true = false ∧ slots ≠ []) := by simp
      simp only [phase2, overlayStep, if_neg hcond, List.all_append, Bool.and_eq_true]
      exact ⟨renderEventsFor_no_matrix env rnd data key, ih⟩

theorem countP_zero_of_no_matrix {l : List Event} {p : Event → Bool}
    (h : l.all (fun e => !isMatrixEvent e) = true)
    (himp : ∀ e, p e = true → isMatrixEvent e = true) : l.countP p = 0 := by
  rw [List.countP_eq_zero]
  intro e he hpe
  have h1 := List.all_eq_true.mp h e he
  rw [himp e hpe] at h1
  exact Bool.noConfusion h1

theorem isGenMatrix_matrix (e : Event) (h : isGenMatrix e = true) :
    isMatrixEvent e = true := by
  cases e <;> simp_all [isGenMatrix, isMatrixEvent]

theorem isInsertMatrix_matrix (e : Event) (h : isInsertMatrix e = true) :
    isMatrixEvent e = true := by
  cases e <;> simp_all [isInsertMatrix, isMatrixEvent]

theorem countP_gen_insert_map (s : String) (slots : List Rect) :
    (slots.map (fun _ => Event.insertMatrixImage s)).countP isGenMatrix = 0 := by
  rw [List.countP_eq_zero]
  intro a ha
  rcases List.mem_map.mp ha with ⟨_, _, rfl⟩
  simp [isGenMatrix]

theorem countP_insert_insert_map (s : String) (slots : List Rect) :
    (slots.map (fun _ => Event.insertMatrixImage s)).countP isInsertMatrix
      = slots.length := by
  induction slots with
  | nil => rfl
  | cons a rest ih =>
      rw [List.map_cons, List.countP_cons,
        if_pos (show isInsertMatrix (Event.insertMatrixImage s) = true from rfl), ih,
        List.length_cons]

theorem matrixBlock_countP_gen (env : RenderEnv) (data : LabelData)
    (slots : List Rect) :
    (matrixBlockEvents env data slots).countP isGenMatrix = 1 := by
  unfold matrixBlockEvents
  rw [List.countP_cons,
    if_pos (show isGenMatrix (Event.generateMatrixImage
      (gs1_element_string data.to_addr.zip data.tracking)) = true from rfl)]
  cases hdm : env.dmOk with
  | true => rw [if_pos rfl, countP_gen_insert_map]
  | false =>
      rw [if_neg (by simp), List.countP_nil]

theorem matrixBlock_countP_insert (env : RenderEnv) (data : LabelData)
    (slots : List Rect) (hdm : env.dmOk = true) :
    (matrixBlockEvents env data slots).countP isInsertMatrix = slots.length := by
  unfold matrixBlockEvents
  rw [List.countP_cons,
    if_neg (show ¬isInsertMatrix (Event.generateMatrixImage
      (gs1_element_string data.to_addr.zip data.tracking)) = true by simp [isInsertMatrix]),
    hdm, if_pos rfl, countP_insert_insert_map]
  rfl

theorem phase2_false_cons (env : RenderEnv) (rnd : RandomDraws) (data : LabelData)
    (slots : List Rect) (hs : slots ≠ []) (key : String) (r : Rect)
    (rest : List (String × Rect)) :
    phase2 env rnd data slots false ((key, r) :: rest)
      = matrixBlockEvents env data slots ++ renderEventsFor env rnd data key
          ++ phase2 env rnd data slots true rest := by
  have hcond : (false = false ∧ slots ≠ []) := ⟨rfl, hs⟩
  show (overlayStep env rnd data slots false key).1 ++
      phase2 env rnd data slots (overlayStep env rnd data slots false key).2 rest = _
  unfold overlayStep
  rw [if_pos hcond]

theorem phase2_false_cons_empty (env : RenderEnv) (rnd : RandomDraws)
    (data : LabelData) (slots : List Rect) (hs : slots = []) (key : String)
    (r : Rect) (rest : List (String × Rect)) :
    phase2 env rnd data slots false ((key, r) :: rest)
      = renderEventsFor env rnd data key ++ phase2 env rnd data slots false rest := by
  have hcond : ¬(false = false ∧ slots ≠ []) := by simp [hs]
  show (overlayStep env rnd data slots false key).1 ++
      phase2 env rnd data slots (overlayStep env rnd data slots false key).2 rest = _
  unfold overlayStep
  rw [if_neg hcond]

theorem phase2_countP_gen_le (env : RenderEnv) (rnd : RandomDraws)
    (data : LabelData) (slots : List Rect) (q : List (String × Rect)) :
    (phase2 env rnd data slots false q).countP isGenMatrix ≤ 1 := by
  induction q with
  | nil => simp [phase2]
  | cons item rest ih =>
      obtain ⟨key, r⟩ := item
      by_cases hs : slots = []
      · rw [phase2_false_cons_empty env rnd data slots hs key r rest,
          List.countP_append,
          countP_zero_of_no_matrix (renderEventsFor_no_matrix env rnd data key)
            isGenMatrix_matrix]
        simpa using ih
      · rw [phase2_false_cons env rnd data slots hs key r rest,
          List.countP_append, List.countP_append,
          matrixBlock_countP_gen env data slots,
          countP_zero_of_no_matrix (renderEventsFor_no_matrix env rnd data key)
            isGenMatrix_matrix,
          countP_zero_of_no_matrix (phase2_true_no_matrix env rnd data slots rest)
            isGenMatrix_matrix]

theorem phase2_insert_payload (env : RenderEnv) (rnd : RandomDraws)
    (data : LabelData) (slots : List Rect) (q : List (String × Rect)) :
    ∀ (done : Bool) (p : String),
      Event.insertMatrixImage p ∈ phase2 env rnd data slots done q →
      p = gs1_element_string data.to_addr.zip data.tracking := by
  induction q with
  | nil =>
      intro done p hp
      simp [phase2] at hp
  | cons item rest ih =>
      obtain ⟨key, r⟩ := item
      intro done p hp
      simp only [phase2] at hp
      rw [List.mem_append] at hp
      rcases hp with hp | hp
      · unfold overlayStep at hp
        split_ifs at hp with hcond
        · rw [List.mem_append] at hp
          rcases hp with hp | hp
          · unfold matrixBlockEvents at hp
            rcases List.mem_cons.mp hp with h | h
            · exact Event.noConfusion h
            · split_ifs at h
              · rcases List.mem_map.mp h with ⟨_, _, heq⟩
                exact (Event.insertMatrixImage.inj heq).symm
              · simp at h
          · have := List.all_eq_true.mp
              (renderEventsFor_no_matrix env rnd data key) _ hp
            simp [isMatrixEvent] at this
        · have := List.all_eq_true.mp
            (renderEventsFor_no_matrix env rnd data key) _ hp
          simp [isMatrixEvent] at this
      · exact ih _ p hp

theorem phase1_all_empty (page : Page) :
    ∀ (l : List (String × String)), (∀ kv ∈ l, page.searchFor kv.2 = []) →
      phase1 page l = ⟨[], []⟩ := by
  intro l
  induction l with
  | nil => intro _; rfl
  | cons kv rest ih =>
      intro h
      obtain ⟨key, needle⟩ := kv
      have hh : page.searchFor needle = [] := h (key, needle) (List.mem_cons_self _ _)
      have ht : phase1 page rest = ⟨[], []⟩ :=
        ih (fun kv hkv => h kv (List.mem_cons_of_mem _ hkv))
      simp only [phase1]
      rw [hh]
      exact ht

/-- Sample parameters used by concrete witnesses. -/
def sampleEnv : RenderEnv := ⟨true, true⟩

def sampleRnd : RandomDraws := ⟨0, 0, 0⟩

/-- A page on which no anchor text is found, holding two slot-sized images. -/
def samplePage : Page := ⟨fun _ => [], [rect35, rect40x42]⟩

/-! ## Claims C7, C8, C9 theorems -/

/-- C7: the full trace of a generation call splits as a prefix of pure
redaction-annotation events, the single `apply_redactions` pass, and the
overlay events; no insertion precedes the redaction pass, which occurs
exactly once. -/
theorem redact_before_overlay_spec :
    ∀ (env : RenderEnv) (rnd : RandomDraws) (data : LabelData) (page : Page),
      ∃ pre post,
        fullTrace env rnd data page = pre ++ Event.applyRedactions :: post
        ∧ pre.all (fun e => !isOverlayEvent e) = true
        ∧ (fullTrace env rnd data page).count Event.applyRedactions = 1 := by
  intro env rnd data page
  refine ⟨(phase1 page ANCHORS).events
      ++ matrixRedactEvents (find_matrix_slots page.imageRects 2),
    phase2 env rnd data (find_matrix_slots page.imageRects 2) false
      (phase1 page ANCHORS).queue, ?_, ?_, ?_⟩
  · rw [fullTrace]
    simp [List.append_assoc]
  · rw [List.all_append, Bool.and_eq_true]
    constructor
    · rw [List.all_eq_true]
      intro e he
      have h := List.all_eq_true.mp (phase1_events_redact page ANCHORS) e he
      rw [decide_eq_true_eq] at h
      subst h
      rfl
    · rw [List.all_eq_true]
      intro e he
      simp only [matrixRedactEvents] at he
      rcases List.mem_map.mp he with ⟨_, _, rfl⟩
      rfl
  · rw [fullTrace]
    have h1 : (phase1 page ANCHORS).events.count Event.applyRedactions = 0 := by
      rw [List.count_eq_zero]
      intro hmem
      have h := List.all_eq_true.mp (phase1_events_redact page ANCHORS) _ hmem
      rw [decide_eq_true_eq] at h
      exact Event.noConfusion h
    have h2 : (matrixRedactEvents (find_matrix_slots page.imageRects 2)).count
        Event.applyRedactions = 0 := by
      rw [List.count_eq_zero]
      intro hmem
      simp only [matrixRedactEvents] at hmem
      rcases List.mem_map.mp hmem with ⟨_, _, h⟩
      exact Event.noConfusion h
    have h3 : (phase2 env rnd data (find_matrix_slots page.imageRects 2) false
        (phase1 page ANCHORS).queue).count Event.applyRedactions = 0 := by
      rw [List.count_eq_zero]
      intro hmem
      have h := List.all_eq_true.mp
        (phase2_overlay env rnd data (find_matrix_slots page.imageRects 2)
          (phase1 page ANCHORS).queue false) _ hmem
      exact Bool.noConfusion h
    rw [List.count_append, List.count_append, List.count_append, h1, h2, h3]
    simp

/-- C8: the matrix symbol is generated at most once per call; every inserted
matrix image carries the same GS1 payload; once the `matrices_done` flag is
set, no later overlay iteration emits a matrix event; when slots were
detected, the matrix block runs on the very first overlay iteration; and on a
successful generation the image is inserted once per detected slot. -/
theorem matrix_once_spec :
    ∀ (env : RenderEnv) (rnd : RandomDraws) (data : LabelData) (page : Page)
      (slots : List Rect) (queue : List (String × Rect)),
      (fullTrace env rnd data page).countP isGenMatrix ≤ 1
      ∧ (phase2 env rnd data slots false queue).countP isGenMatrix ≤ 1
      ∧ (∀ p, Event.insertMatrixImage p ∈ phase2 env rnd data slots false queue →
          p = gs1_element_string data.to_addr.zip data.tracking)
      ∧ (phase2 env rnd data slots true queue).all (fun e => !isMatrixEvent e) = true
      ∧ (slots ≠ [] → ∀ key r rest, queue = (key, r) :: rest →
          phase2 env rnd data slots false queue
            = matrixBlockEvents env data slots ++ renderEventsFor env rnd data key
                ++ phase2 env rnd data slots true rest)
      ∧ (env.dmOk = true → slots ≠ [] → ∀ key r rest, queue = (key, r) :: rest →
          (phase2 env rnd data slots false queue).countP isInsertMatrix
            = slots.length) := by
  intro env rnd data page slots queue
  refine ⟨?_, phase2_countP_gen_le env rnd data slots queue,
    fun p hp => phase2_insert_payload env rnd data slots queue false p hp,
    phase2_true_no_matrix env rnd data slots queue,
    fun hs key r rest hq => by
      rw [hq]
      exact phase2_false_cons env rnd data slots hs key r rest,
    fun hdm hs key r rest hq => ?_⟩
  · rw [fullTrace, List.countP_append, List.countP_append, List.countP_append]
    have h1 : (phase1 page ANCHORS).events.countP isGenMatrix = 0 := by
      rw [List.countP_eq_zero]
      intro e he hpe
      have h := List.all_eq_true.mp (phase1_events_redact page ANCHORS) e he
      rw [decide_eq_true_eq] at h
      subst h
      exact Bool.noConfusion hpe
    have h2 : (matrixRedactEvents (find_matrix_slots page.imageRects 2)).countP
        isGenMatrix = 0 := by
      rw [List.countP_eq_zero]
      intro e he hpe
      simp only [matrixRedactEvents] at he
      rcases List.mem_map.mp he with ⟨_, _, rfl⟩
      exact Bool.noConfusion hpe
    rw [h1, h2]
    have h3 : List.countP isGenMatrix [Event.applyRedactions] = 0 := rfl
    have h4 := phase2_countP_gen_le env rnd data (find_matrix_slots page.imageRects 2)
      (phase1 page ANCHORS).queue
    simp only [h3]
    simpa using h4
  · rw [hq, phase2_false_cons env rnd data slots hs key r rest,
      List.countP_append, List.countP_append,
      matrixBlock_countP_insert env data slots hdm,
      countP_zero_of_no_matrix (renderEventsFor_no_matrix env rnd data key)
        isInsertMatrix_matrix,
      countP_zero_of_no_matrix (phase2_true_no_matrix env rnd data slots rest)
        isInsertMatrix_matrix]
    rfl

/-- C8 witness: a one-item queue and one detected slot, with a succeeding
generator: the matrix block runs on the first iteration and inserts once. -/
theorem matrix_once_spec_witness :
    phase2 sampleEnv sampleRnd sampleData [rect35] false [("routing", rect35)]
      = matrixBlockEvents sampleEnv sampleData [rect35]
          ++ renderEventsFor sampleEnv sampleRnd sampleData "routing"
          ++ phase2 sampleEnv sampleRnd sampleData [rect35] true []
    ∧ (phase2 sampleEnv sampleRnd sampleData [rect35] false
        [("routing", rect35)]).countP isInsertMatrix = [rect35].length :=
  ⟨(matrix_once_spec sampleEnv sampleRnd sampleData samplePage [rect35]
      [("routing", rect35)]).2.2.2.2.1 (by decide) "routing" rect35 [] rfl,
   (matrix_once_spec sampleEnv sampleRnd sampleData samplePage [rect35]
      [("routing", rect35)]).2.2.2.2.2 rfl (by decide) "routing" rect35 [] rfl⟩

/-- C9: if no anchor text from the table is found on the page, the insert
queue is empty and the trace contains no matrix event at all, regardless of
how many matrix slots were detected. -/
theorem no_anchor_no_matrix_spec :
    ∀ (env : RenderEnv) (rnd : RandomDraws) (data : LabelData) (page : Page),
      (∀ kv ∈ ANCHORS, page.searchFor kv.2 = []) →
      (phase1 page ANCHORS).queue = []
      ∧ (fullTrace env rnd data page).all (fun e => !isMatrixEvent e) = true := by
  intro env rnd data page h
  have hp : phase1 page ANCHORS = ⟨[], []⟩ := phase1_all_empty page ANCHORS h
  refine ⟨by rw [hp], ?_⟩
  rw [fullTrace, hp]
  simp [List.all_append, matrixRedactEvents, isMatrixEvent, phase2]

/-- C9 witness: a page finding no anchor text while holding two slot-sized
images yields an empty queue and a matrix-free trace. -/
theorem no_anchor_no_matrix_spec_witness :
    (phase1 samplePage ANCHORS).queue = []
    ∧ (fullTrace sampleEnv sampleRnd sampleData samplePage).all
        (fun e => !isMatrixEvent e) = true :=
  no_anchor_no_matrix_spec sampleEnv sampleRnd sampleData samplePage (by decide)

/-! ## Claim C10 theorem -/

/-- C10: when the caller supplies no zone (the key holds `None`) and the zone
lookup is unresolved, the zone-display overlay text is exactly `"Zone None"`,
the direct interpolation of `None` into the display f-string. -/
theorem zone_none_display_spec :
    ∀ (data : LabelData) (net : NetResult) (env : RenderEnv) (rnd : RandomDraws),
      data.zone = none →
      (fetch_usps_zone net data.from_addr.zip data.to_addr.zip
        (pyStrip data.date)).1 = "" →
      zoneDisplayVal (applyZoneLookup data
          (fetch_usps_zone net data.from_addr.zip data.to_addr.zip
            (pyStrip data.date)).1)
        = "Zone None"
      ∧ renderEventsFor env rnd
          (applyZoneLookup data
            (fetch_usps_zone net data.from_addr.zip data.to_addr.zip
              (pyStrip data.date)).1)
          "postage_zone"
        = [Event.insertText "postage_zone" "Zone None"] := by
  intro data net env rnd hz hf
  rw [hf]
  have hd : applyZoneLookup data "" = data := by simp [applyZoneLookup]
  rw [hd]
  have hzd : zoneDisplayVal data = "Zone None" := by
    unfold zoneDisplayVal
    rw [hz]
    rfl
  refine ⟨hzd, ?_⟩
  simp [renderEventsFor, postageVal, hzd]

/-- C10 witness: no caller-supplied zone and a lookup blocked by the empty
ship date yield the `"Zone None"` display text. -/
theorem zone_none_display_spec_witness :
    zoneDisplayVal (applyZoneLookup sampleDataNoDate
        (fetch_usps_zone NetResult.failure sampleDataNoDate.from_addr.zip
          sampleDataNoDate.to_addr.zip (pyStrip sampleDataNoDate.date)).1)
      = "Zone None"
    ∧ renderEventsFor sampleEnv sampleRnd
        (applyZoneLookup sampleDataNoDate
          (fetch_usps_zone NetResult.failure sampleDataNoDate.from_addr.zip
            sampleDataNoDate.to_addr.zip (pyStrip sampleDataNoDate.date)).1)
        "postage_zone"
      = [Event.insertText "postage_zone" "Zone None"] :=
  zone_none_display_spec sampleDataNoDate NetResult.failure sampleEnv sampleRnd
    rfl (by decide)

/-! ## Claim C1 theorems -/

/-- C1 counterexample: on the exit path where `doc.tobytes` raises before
serialization completes, the document is not closed — there is no
`try/finally` around lines 198-475. -/
theorem doc_not_closed_on_serialize_failure :
    (generate_pdf_run sampleEnv sampleRnd sampleData samplePage true).docClosed
      = false := rfl

/-- C1 amended: the document is closed exactly on the runs whose serialization
completes; an exception raised before serialization completes propagates and
skips the `doc.close()` on line 474. -/
theorem doc_close_iff_serialized :
    ∀ (env : RenderEnv) (rnd : RandomDraws) (data : LabelData) (page : Page)
      (serializeRaises : Bool),
      (generate_pdf_run env rnd data page serializeRaises).docClosed
          = !serializeRaises
      ∧ (generate_pdf_run env rnd data page serializeRaises).result.isOk
          = !serializeRaises := by
  intro env rnd data page sr
  cases sr <;> exact ⟨rfl, rfl⟩

end Server
